import Mathlib

attribute [local semireducible] Rat.mul Rat.add Rat.inv Rat.sub

deriving instance DecidableEq for Except

/-!
Shallow embedding of the yield-calculation repository
(`src/g_yield_v6.py` and `src/yield_calculation_v11.py`).

Numeric cells are modelled as `Option ℚ`: `none` is the floating-point
not-a-number sentinel (`np.nan`), `some q` a defined value.  Arithmetic on
defined values is exact rational arithmetic, matching the sources' policy of
applying no rounding or truncation to computed values.
-/

namespace YieldCalc

/-- One row of the dataset: `番号` (sequence number), `配当/株`
(dividend-per-share) and `前月終値` (previous-period closing price).  The two
price columns may be missing (`none` models `NaN` after coercion). -/
structure Row where
  num : Int
  div : Option ℚ
  price : Option ℚ
deriving DecidableEq, Repr

/-- Dividend cells of the window of positions `max 0 (i-11) .. i` (inclusive),
the slice `df.loc[start_index:i, '配当/株']` of `g_yield_v6.py` line 57, which
is also the positions covered by the width-12 rolling window of
`yield_calculation_v11.py` line 104 whenever `11 ≤ i`. -/
def windowDivs (l : List Row) (i : Nat) : List (Option ℚ) :=
  ((l.take (i + 1)).drop (i - 11)).map Row.div

/-- Sum of a list of optional dividends skipping undefined entries, the
semantics of pandas `Series.sum()` (`skipna=True`) used at
`g_yield_v6.py` line 57: each `NaN` contributes zero. -/
def skipSum (ws : List (Option ℚ)) : ℚ :=
  (ws.map (fun d => d.getD 0)).sum

/-- The rolling 12-record dividend sum of `yield_calculation_v11.py` line 104,
`df['配当/株'].rolling(window=12).sum()`: undefined at positions `i < 11`
(window not yet full) and at any window containing an undefined dividend
(`min_periods` defaults to the window size, so fewer than 12 non-null values
give `NaN`); otherwise the exact sum of the 12 dividends. -/
def annualDividend (l : List Row) (i : Nat) : Option ℚ :=
  if i < 11 then none
  else if (windowDivs l i).all Option.isSome then some (skipSum (windowDivs l i))
  else none

/-- Closing price of the immediately preceding record,
`df['前月終値'].shift(1)` of `yield_calculation_v11.py` line 107: undefined at
position 0, and undefined when the predecessor's price cell is itself `NaN`. -/
def prevPrice (l : List Row) (i : Nat) : Option ℚ :=
  if i = 0 then none else (l[i-1]?).bind Row.price

/-- The yield of `yield_calculation_v11.py` lines 104-114 at position `i`
holding row `r`, after the sort: the raw quotient
`annual_dividend / previous_month_price * 100` (line 110), masked to `NaN`
where `番号 < 12` (line 113) and where the previous price is `NaN` or zero
(line 114).  An undefined rolling sum propagates (`NaN / p = NaN`). -/
def yieldAtV11 (l : List Row) (i : Nat) (r : Row) : Option ℚ :=
  if r.num < 12 then none
  else
    match prevPrice l i with
    | none => none
    | some p => if p = 0 then none else (annualDividend l i).map (fun a => a / p * 100)

/-- The derived yield column over an already-sorted, reindexed dataset
(`yield_calculation_v11.py` lines 104-114). -/
def rollingYields (l : List Row) : List (Option ℚ) :=
  (List.range l.length).map (fun i =>
    match l[i]? with
    | some r => yieldAtV11 l i r
    | none => none)

/-- Ordering of rows by the `番号` column. -/
def rowLe (a b : Row) : Prop := a.num ≤ b.num

/-- Strict ordering of rows by the `番号` column. -/
def rowLt (a b : Row) : Prop := a.num < b.num

instance : DecidableRel rowLe := fun a b => inferInstanceAs (Decidable (a.num ≤ b.num))

instance : DecidableRel rowLt := fun a b => inferInstanceAs (Decidable (a.num < b.num))

instance : IsTotal Row rowLe := ⟨fun a b => Int.le_total a.num b.num⟩

instance : IsTrans Row rowLe := ⟨fun _ _ _ h1 h2 => le_trans h1 h2⟩

instance : IsTrans Row rowLt := ⟨fun _ _ _ h1 h2 => lt_trans h1 h2⟩

instance : IsAntisymm Row rowLt := ⟨fun _ _ h1 h2 => absurd (lt_trans h1 h2) (lt_irrefl _)⟩

/-- The sort `df.sort_values('番号')` of `yield_calculation_v11.py` line 101,
modelled as a stable sort by the `番号` column (ties keep input order, which is
what numpy's argsort produces on the list sizes exercised here). -/
def sortRows (l : List Row) : List Row := l.insertionSort rowLe

/-- `calculate_annual_yield` of `yield_calculation_v11.py` lines 90-119:
sort by `番号`, reindex densely, and compute the rolling yields.  The returned
series is indexed `0..n-1` in sorted order. -/
def calculate_annual_yield (l : List Row) : List (Option ℚ) :=
  rollingYields (sortRows l)

/-- The default after-tax multiplier `0.9 * 0.79685`
(`yield_calculation_v11.py` line 70, `g_yield_v6.py` line 79). -/
def taxRate : ℚ := 9/10 * (79685/100000)

/-- After-tax column `df['＄:利回り'] * tax_rate`
(`yield_calculation_v11.py` line 221): `NaN` yields propagate to `NaN`. -/
def afterTaxCol (tax : ℚ) (ys : List (Option ℚ)) : List (Option ℚ) :=
  ys.map (Option.map (fun y => y * tax))

/-- The assignment `df['＄:利回り'] = calculate_annual_yield(df)` of
`yield_calculation_v11.py` line 220: the series computed on the sorted
dataset carries the dense index `0..n-1`, and so is aligned back to the
caller's dataframe by position.  Row `k` of the table in its original order
receives the yield of the `k`-th row in sorted order. -/
def attachedYields (l : List Row) : List (Row × Option ℚ) :=
  l.zip (calculate_annual_yield l)

/-- The exception raised by `df.loc[i - 1, '前月終値']` at `i = 0`
(`g_yield_v6.py` line 58): label `-1` is absent from the range index. -/
inductive CalcError where
  | keyError
deriving DecidableEq, Repr

/-- One iteration of the loop of `g_yield_v6.py` lines 51-71 at position `i`
holding row `r`.  `番号 < 12` appends `NaN` (line 53); otherwise the window
sum over `max 0 (i-11) .. i` skips undefined dividends (line 57) and the
previous price lookup `df.loc[i-1, '前月終値']` (line 58) raises a `KeyError`
at `i = 0`; a `NaN` or zero previous price appends `NaN` (lines 64-65). -/
def yieldAtV6 (l : List Row) (i : Nat) (r : Row) : Except CalcError (Option ℚ) :=
  if r.num < 12 then .ok none
  else if i = 0 then .error .keyError
  else
    match (l[i-1]?).bind Row.price with
    | none => .ok none
    | some p => .ok (if p = 0 then none else some (skipSum (windowDivs l i) / p * 100))

/-- The value `yieldAtV6` appends when it does not raise (`none` in the
unreachable raising case). -/
def yieldAtV6run (l : List Row) (i : Nat) (r : Row) : Option ℚ :=
  if r.num < 12 then none
  else if i = 0 then none
  else
    match (l[i-1]?).bind Row.price with
    | none => none
    | some p => if p = 0 then none else some (skipSum (windowDivs l i) / p * 100)

/-- Sequencing of fallible steps: the Python loop appends results until an
exception aborts the whole computation, in which case no list is produced. -/
def mapExcept {ε α β : Type} (f : α → Except ε β) : List α → Except ε (List β)
  | [] => .ok []
  | x :: xs =>
    match f x with
    | .error e => .error e
    | .ok y =>
      match mapExcept f xs with
      | .error e => .error e
      | .ok ys => .ok (y :: ys)

/-- `calculate_annual_yield` of `g_yield_v6.py` lines 49-73: iterate
`for i in range(len(df))` over the dataset in its given order (this variant
performs no sort), appending one yield per row, aborting on an exception. -/
def calculate_annual_yield_v6 (l : List Row) : Except CalcError (List (Option ℚ)) :=
  mapExcept (fun i =>
    match l[i]? with
    | some r => yieldAtV6 l i r
    | none => .ok none) (List.range l.length)

/-- The list `calculate_annual_yield_v6` produces when no row raises. -/
def v6result (l : List Row) : List (Option ℚ) :=
  (List.range l.length).map (fun i =>
    match l[i]? with
    | some r => yieldAtV6run l i r
    | none => none)

/-!
Currency normalization.  Both sources call
`df[column].replace(mapping, regex=True)` (`g_yield_v6.py` line 40,
`yield_calculation_v11.py` line 211): with `regex=True` every key of the
mapping is a regular expression, substituted throughout each string cell.
The fragment of Python regex syntax the mappings exercise is literal
characters, backslash escapes, and the end-of-string anchor `$`; the model
covers exactly that fragment.
-/

/-- A token of the modelled regex fragment: a literal character, or the
end-of-string anchor `$`. -/
inductive RegexTok where
  | ch (c : Char)
  | eos
deriving DecidableEq, Repr

/-- Parse a pattern string: `\c` escapes to the literal `c`, an unescaped `$`
is the end-of-string anchor, every other character is a literal. -/
def parseRegexTokens : List Char → List RegexTok
  | [] => []
  | '\\' :: c :: rest => .ch c :: parseRegexTokens rest
  | '$' :: rest => .eos :: parseRegexTokens rest
  | c :: rest => .ch c :: parseRegexTokens rest

/-- Match the token list at the head of `cs`, returning the number of
characters consumed.  The anchor consumes nothing and succeeds only at the
end of the string. -/
def matchToks : List RegexTok → List Char → Option Nat
  | [], _ => some 0
  | .ch c :: ts, d :: ds => if d = c then (matchToks ts ds).map (· + 1) else none
  | .ch _ :: _, [] => none
  | .eos :: ts, [] => matchToks ts []
  | .eos :: _, _ :: _ => none

/-- Leftmost, non-overlapping substitution of every match, the semantics of
`re.sub`: a zero-width match emits the replacement and advances one
character; a zero-width match at the end of the string is replaced once.
The `fuel` argument only bounds the recursion (every step shortens the
string, so `fuel = length` never runs out). -/
def subToksAux (ts : List RegexTok) (r : List Char) : Nat → List Char → List Char
  | _, [] =>
    match matchToks ts [] with
    | some _ => r
    | none => []
  | 0, s => s
  | fuel + 1, c :: cs =>
    match matchToks ts (c :: cs) with
    | some 0 => r ++ c :: subToksAux ts r fuel cs
    | some (n + 1) => r ++ subToksAux ts r fuel (cs.drop n)
    | none => c :: subToksAux ts r fuel cs

/-- Substitution over a character list, with enough fuel for the whole
string. -/
def subToks (ts : List RegexTok) (r : List Char) (s : List Char) : List Char :=
  subToksAux ts r s.length s

/-- Substitute one regex pattern throughout a string. -/
def regexReplaceAll (pat repl s : String) : String :=
  String.mk (subToks (parseRegexTokens pat.toList) repl.toList s.toList)

/-- Apply the whole symbol-stripping mapping to a string cell, one pattern
after another, the effect of `Series.replace(mapping, regex=True)`. -/
def applySymbols (syms : List (String × String)) (s : String) : String :=
  syms.foldl (fun acc pr => regexReplaceAll pr.1 pr.2 acc) s

/-- Value of a string of decimal digits, `none` on any non-digit. -/
def digitsToNat : List Char → Option Nat
  | [] => some 0
  | c :: cs =>
    if c.isDigit then (digitsToNat cs).map (fun n => (c.toNat - 48) * 10 ^ cs.length + n)
    else none

/-- The coercion `pd.to_numeric(..., errors='coerce')` on the decimal
literals the repository's data exercises: optional sign, digits, optional
fractional part.  Anything else coerces to `NaN` (`none`), never an error. -/
def to_numeric (s : String) : Option ℚ :=
  let signed : ℚ × List Char :=
    match s.toList with
    | '-' :: rest => (-1, rest)
    | '+' :: rest => (1, rest)
    | cs => (1, cs)
  match signed.2.splitOn '.' with
  | [ip] =>
    if ip.isEmpty then none
    else (digitsToNat ip).map (fun n => signed.1 * n)
  | [ip, fp] =>
    if ip.isEmpty && fp.isEmpty then none
    else
      match digitsToNat ip, digitsToNat fp with
      | some a, some b => some (signed.1 * ((a : ℚ) + (b : ℚ) / 10 ^ fp.length))
      | _, _ => none
  | _ => none

/-- Normalization of one string cell: strip the configured symbols, then
coerce to a number (`g_yield_v6.py` lines 40-41,
`yield_calculation_v11.py` lines 211-212). -/
def normalizeCell (syms : List (String × String)) (s : String) : Option ℚ :=
  to_numeric (applySymbols syms s)

/-- The replacement mapping of `g_yield_v6.py` line 35:
`{'\$': '', '¥': ''}` — note the escaped dollar. -/
def currency_symbols : List (String × String) := [("\\$", ""), ("¥", "")]

/-- The column list of `g_yield_v6.py` line 36. -/
def columns_to_convert : List String := ["配当/株", "前月終値"]

/-- The configuration record of `yield_calculation_v11.py`: symbol-stripping
mapping, columns to normalize, after-tax multiplier. -/
structure Config where
  currency_symbols : List (String × String)
  columns_to_convert : List String
  tax_rate : ℚ
deriving DecidableEq, Repr

/-- The built-in defaults of `load_config`
(`yield_calculation_v11.py` lines 67-71) — note the unescaped `"$"`. -/
def default_config : Config :=
  { currency_symbols := [("$", ""), ("¥", "")]
    columns_to_convert := ["配当/株", "前月終値"]
    tax_rate := 9/10 * (79685/100000) }

/-- A parsed `config.json`: each recognized top-level key independently
present (`some`) or absent (`none`).  Unrecognized keys do not affect the
three recognized ones and are not modelled. -/
structure UserConfig where
  currency_symbols : Option (List (String × String)) := none
  columns_to_convert : Option (List String) := none
  tax_rate : Option ℚ := none
deriving DecidableEq, Repr

/-- Log emissions of `load_config`: the missing-file warning (line 84), the
malformed-file message (line 87), and one warning per recognized key absent
from a parsed artifact (line 81). -/
inductive ConfigWarning where
  | fileNotFound
  | jsonDecodeError
  | missingKey (k : String)
deriving DecidableEq, Repr

/-- `load_config` of `yield_calculation_v11.py` lines 56-88.  The argument
encodes the state of the artifact: `none` for a missing file
(`FileNotFoundError`), `some none` for unparseable JSON
(`json.JSONDecodeError`), `some (some u)` for a parsed artifact.  A parsed
artifact overwrites each present key wholesale onto the defaults
(lines 76-77) and a warning is emitted per absent recognized key, in the
insertion order of the default dict (lines 79-81). -/
def load_config : Option (Option UserConfig) → Config × List ConfigWarning
  | none => (default_config, [.fileNotFound])
  | some none => (default_config, [.jsonDecodeError])
  | some (some u) =>
    ({ currency_symbols := u.currency_symbols.getD default_config.currency_symbols
       columns_to_convert := u.columns_to_convert.getD default_config.columns_to_convert
       tax_rate := u.tax_rate.getD default_config.tax_rate },
     (if u.currency_symbols.isNone then [ConfigWarning.missingKey "currency_symbols"] else []) ++
     (if u.columns_to_convert.isNone then [ConfigWarning.missingKey "columns_to_convert"] else []) ++
     (if u.tax_rate.isNone then [ConfigWarning.missingKey "tax_rate"] else []))

/-- The tabular input of `main`: the integer `番号` column plus the named
string-valued columns read from the CSV. -/
structure InputTable where
  nums : List Int
  cols : List (String × List String)
deriving DecidableEq, Repr

/-- Look a named column up in the table. -/
def getCol (t : InputTable) (c : String) : Option (List String) :=
  (t.cols.find? (fun e => e.1 == c)).map (fun e => e.2)

/-- The check of `yield_calculation_v11.py` line 204:
`[col for col in config['columns_to_convert'] if col not in df.columns]`. -/
def missing_columns (cfg : Config) (t : InputTable) : List String :=
  cfg.columns_to_convert.filter (fun c => (getCol t c).isNone)

/-- A named column as numbers: normalized when the column is configured for
conversion (`yield_calculation_v11.py` lines 210-212), otherwise the values
`read_csv` inferred. -/
def readNumericCol (cfg : Config) (t : InputTable) (c : String) : List (Option ℚ) :=
  match getCol t c with
  | none => []
  | some cells =>
    if c ∈ cfg.columns_to_convert then cells.map (normalizeCell cfg.currency_symbols)
    else cells.map to_numeric

/-- Assemble the rows `calculate_annual_yield` consumes from the normalized
table: `番号`, `配当/株` and `前月終値` (the names are fixed in the
computation, lines 101-107). -/
def buildRows (cfg : Config) (t : InputTable) : List Row :=
  (t.nums.zip ((readNumericCol cfg t "配当/株").zip (readNumericCol cfg t "前月終値"))).map
    (fun x => ⟨x.1, x.2.1, x.2.2⟩)

/-- The computation of `main` (`yield_calculation_v11.py` lines 203-221)
after the file has been read: abort with the missing column names when any
configured column is absent (lines 204-207, before any normalization);
otherwise normalize, compute the yield series on the sorted data, attach it
back by position, and derive the after-tax column. -/
def mainResult (cfg : Config) (t : InputTable) :
    Except (List String) (List (Row × Option ℚ × Option ℚ)) :=
  let missing := missing_columns cfg t
  if missing.isEmpty then
    let rows := buildRows cfg t
    let ys := calculate_annual_yield rows
    let ats := afterTaxCol cfg.tax_rate ys
    .ok (rows.zip (ys.zip ats))
  else .error missing

/-- A dataframe column as the single-pass script sees it: still the raw CSV
strings, or already overwritten in place with its normalized numeric values
by the conversion loop. -/
inductive ColState where
  | raw (cells : List String)
  | converted (cells : List (Option ℚ))
deriving DecidableEq, Repr

/-- The named columns of the single-pass script's dataframe. -/
abbrev V6Frame := List (String × ColState)

/-- Look a named column up in the frame (first match). -/
def lookupCol : V6Frame → String → Option ColState
  | [], _ => none
  | e :: f, c => if e.1 == c then some e.2 else lookupCol f c

/-- Overwrite a named column in place, keeping every name. -/
def setCol : V6Frame → String → ColState → V6Frame
  | [], _, _ => []
  | e :: f, c, s => (if e.1 == c then (e.1, s) else e) :: setCol f c s

/-- The effect of `g_yield_v6.py` lines 40-41 on one column's cells: raw
strings are stripped and coerced; an already numeric column is unchanged
(`replace` and `to_numeric` fix numeric values). -/
def convertState (syms : List (String × String)) : ColState → ColState
  | .raw cells => .converted (cells.map (normalizeCell syms))
  | .converted cells => .converted cells

/-- The conversion loop of `g_yield_v6.py` lines 39-41.  There is no
missing-column check: the configured columns are processed in order, each
present one being normalized in place in the dataframe, and the first read
`df[column]` of an absent column raises a `KeyError` carrying just that one
name.  The result pairs the dataframe state reached with the raised name,
if any. -/
def convertColumnsV6 (syms : List (String × String)) :
    List String → V6Frame → V6Frame × Option String
  | [], f => (f, none)
  | c :: cs, f =>
    match lookupCol f c with
    | none => (f, some c)
    | some st => convertColumnsV6 syms cs (setCol f c (convertState syms st))

/-- The first configured column absent from the frame. -/
def firstAbsentCol (f : V6Frame) : List String → Option String
  | [] => none
  | c :: cs => if (lookupCol f c).isNone then some c else firstAbsentCol f cs

/-!  Concrete datasets used by witnesses and counterexamples.  -/

/-- The spec's scenario: sequence numbers 1..13, dividend 1.0 and previous
closing price 100.0 throughout. -/
def scenarioRows : List Row :=
  (List.range 13).map (fun k => ⟨(k : Int) + 1, some 1, some 100⟩)

/-- Two sorted records, the second with sequence number 12: only two records
exist at or before it. -/
def c2rows : List Row := [⟨11, some 1, some 100⟩, ⟨12, some 1, some 100⟩]

/-- A dataset whose very first record already has sequence number 12. -/
def c3rows : List Row := [⟨12, some 1, some 100⟩]

/-- Two sorted records with a gap: position 1 carries sequence number 13. -/
def c7rows : List Row := [⟨11, some 1, some 100⟩, ⟨13, some 2, some 100⟩]

/-- The scenario dataset fed in reverse order. -/
def shuffledRows : List Row := scenarioRows.reverse

/-- The scenario dataset with one dividend cell missing (`NaN`). -/
def c10rows : List Row :=
  (List.range 13).map (fun k =>
    ⟨(k : Int) + 1, if k = 5 then none else some 1, some 100⟩)

/-!  Helper lemmas.  -/

theorem rollingYields_getElem (l : List Row) (i : Nat) (r : Row) (hr : l[i]? = some r) :
    (rollingYields l)[i]? = some (yieldAtV11 l i r) := by
  obtain ⟨hi, -⟩ := List.getElem?_eq_some_iff.mp hr
  simp [rollingYields, List.getElem?_range hi, hr]

theorem v6result_getElem (l : List Row) (i : Nat) (r : Row) (hr : l[i]? = some r) :
    (v6result l)[i]? = some (yieldAtV6run l i r) := by
  obtain ⟨hi, -⟩ := List.getElem?_eq_some_iff.mp hr
  simp [v6result, List.getElem?_range hi, hr]

theorem mapExcept_eq_ok {ε α β : Type} (f : α → Except ε β) (g : α → β) :
    ∀ xs : List α, (∀ x ∈ xs, f x = .ok (g x)) → mapExcept f xs = .ok (xs.map g)
  | [], _ => rfl
  | x :: xs, H => by
    have hx := H x (List.mem_cons_self x xs)
    have ih := mapExcept_eq_ok f g xs (fun y hy => H y (List.mem_cons_of_mem x hy))
    simp [mapExcept, hx, ih]

theorem mapExcept_ok_inv {ε α β : Type} (f : α → Except ε β) :
    ∀ (xs : List α) (ys : List β), mapExcept f xs = Except.ok ys →
      ys.length = xs.length ∧
      ∀ (i : Nat) (x : α), xs[i]? = some x → ∃ y, ys[i]? = some y ∧ f x = Except.ok y := by
  intro xs
  induction xs with
  | nil =>
    intro ys h
    simp [mapExcept] at h
    subst h
    exact ⟨rfl, by intro i x hx; simp at hx⟩
  | cons x xs ih =>
    intro ys h
    simp only [mapExcept] at h
    cases hfx : f x with
    | error e => rw [hfx] at h; simp at h
    | ok y =>
      rw [hfx] at h
      cases hrest : mapExcept f xs with
      | error e => rw [hrest] at h; simp at h
      | ok ys2 =>
        rw [hrest] at h
        simp at h
        subst h
        obtain ⟨hlen, hget⟩ := ih ys2 hrest
        refine ⟨by simp [hlen], ?_⟩
        intro i z hz
        cases i with
        | zero =>
          simp at hz
          subst hz
          exact ⟨y, by simp, hfx⟩
        | succ j =>
          simp at hz
          obtain ⟨w, hw, hfw⟩ := hget j z hz
          exact ⟨w, by simpa using hw, hfw⟩

/-- When `番号 ≥ 12` and the position is not the first row, the loop body of
the single-pass variant does not raise and appends its computed value. -/
theorem yieldAtV6_eq_run (l : List Row) (i : Nat) (r : Row)
    (h : ¬(12 ≤ r.num ∧ i = 0)) :
    yieldAtV6 l i r = .ok (yieldAtV6run l i r) := by
  by_cases hnum : r.num < 12
  · simp [yieldAtV6, yieldAtV6run, hnum]
  · have hi0 : ¬(i = 0) := fun h0 => h ⟨le_of_not_lt hnum, h0⟩
    simp only [yieldAtV6, yieldAtV6run, if_neg hnum, if_neg hi0]
    cases (l[i-1]?).bind Row.price <;> simp

/-- If the first record has `番号 < 12`, the single-pass variant raises no
exception and returns one value per row. -/
theorem calcV6_ok (l : List Row) (hsafe : ∀ r, l[0]? = some r → r.num < 12) :
    calculate_annual_yield_v6 l = .ok (v6result l) := by
  unfold calculate_annual_yield_v6 v6result
  apply mapExcept_eq_ok
  intro i hi
  rw [List.mem_range] at hi
  rw [List.getElem?_eq_getElem hi]
  apply yieldAtV6_eq_run
  rintro ⟨hnum, rfl⟩
  exact absurd (hsafe _ (List.getElem?_eq_getElem hi)) (not_lt.mpr hnum)

theorem skipSum_map_some (ds : List ℚ) : skipSum (ds.map some) = ds.sum := by
  simp [skipSum, List.map_map, Function.comp_def]

theorem annualDividend_of_window (l : List Row) (i : Nat) (ds : List ℚ)
    (hi : 11 ≤ i) (hwin : windowDivs l i = ds.map some) :
    annualDividend l i = some ds.sum := by
  simp [annualDividend, not_lt.mpr hi, hwin, skipSum_map_some, List.all_map]

/-!  Claim theorems.  -/

/-- C1: for every record at a position `i` of the sorted dataset holding the
13th-or-later sorted record (`11 ≤ i`), with sequence number ≥ 12, a defined
non-zero prior closing price `p`, and the trailing 12 dividends `ds` (all
defined), the computed yield is exactly `ds.sum / p * 100` — no rounding or
truncation — in the vectorized variant, and likewise in the single-pass
variant whenever its computation completes. -/
theorem C1_yield_formula (l : List Row) (i : Nat) (r : Row) (p : ℚ) (ds : List ℚ)
    (ys : List (Option ℚ))
    (hs : sortRows l = l)
    (hr : l[i]? = some r) (hnum : 12 ≤ r.num)
    (hi : 11 ≤ i)
    (hwin : windowDivs l i = ds.map some)
    (hp : prevPrice l i = some p) (hp0 : p ≠ 0)
    (hys : calculate_annual_yield_v6 l = Except.ok ys) :
    (calculate_annual_yield l)[i]? = some (some (ds.sum / p * 100)) ∧
    ys[i]? = some (some (ds.sum / p * 100)) := by
  have hi0 : ¬(i = 0) := by omega
  constructor
  · rw [calculate_annual_yield, hs, rollingYields_getElem l i r hr]
    simp [yieldAtV11, not_lt.mpr hnum, hp, hp0,
      annualDividend_of_window l i ds hi hwin]
  · obtain ⟨-, hget⟩ := mapExcept_ok_inv _ _ ys hys
    obtain ⟨hilen, -⟩ := List.getElem?_eq_some_iff.mp hr
    obtain ⟨y, hy, hfy⟩ := hget i i (by simp [List.getElem?_range hilen])
    have hprev : (l[i-1]?).bind Row.price = some p := by
      simpa [prevPrice, hi0] using hp
    simp only [hr] at hfy
    simp only [yieldAtV6, if_neg (not_lt.mpr hnum), if_neg hi0, hprev,
      if_neg hp0, Except.ok.injEq] at hfy
    rw [hy, ← hfy, hwin, skipSum_map_some]

/-- C1 witness: the spec scenario, record #13 at sorted position 12, prior
price 100, twelve trailing dividends of 1 each. -/
theorem C1_yield_formula_witness :
    (calculate_annual_yield scenarioRows)[12]? =
      some (some ((List.replicate 12 (1:ℚ)).sum / 100 * 100)) ∧
    (v6result scenarioRows)[12]? =
      some (some ((List.replicate 12 (1:ℚ)).sum / 100 * 100)) :=
  C1_yield_formula scenarioRows 12 ⟨13, some 1, some 100⟩ 100 (List.replicate 12 1)
    (v6result scenarioRows)
    (by decide) (by decide) (by decide) (by decide) (by decide) (by decide) (by decide)
    (by decide)

/-- C2 counterexample: the single-pass variant computes the defined yield
`2` for the record with sequence number 12 of `c2rows`, although only two
records (not twelve) exist at or before it in sorted order, refuting the
claim that a yield is defined only when at least 12 records lie at or
before the record. -/
theorem C2_counterexample :
    calculate_annual_yield_v6 c2rows = Except.ok [none, some 2] ∧
    c2rows.length = 2 := by decide

/-- C2 amended: in the vectorized variant a yield (and its after-tax value)
is defined only when at least 12 records lie at or before the record in
sorted order and its sequence number is ≥ 12; in the single-pass variant
only the sequence-number condition is enforced (its window may span fewer
than 12 records).  In both variants records with sequence number < 12 never
receive a value. -/
theorem C2_amended (l : List Row) (i j : Nat) (r rj : Row) (ys : List (Option ℚ))
    (hr : (sortRows l)[i]? = some r)
    (hcond : i < 11 ∨ r.num < 12)
    (hys : calculate_annual_yield_v6 l = Except.ok ys)
    (hrj : l[j]? = some rj) (hnumj : rj.num < 12) :
    (calculate_annual_yield l)[i]? = some none ∧
    (afterTaxCol taxRate (calculate_annual_yield l))[i]? = some none ∧
    ys[j]? = some none ∧
    (afterTaxCol taxRate ys)[j]? = some none := by
  have h1 : (calculate_annual_yield l)[i]? = some (yieldAtV11 (sortRows l) i r) :=
    rollingYields_getElem _ i r hr
  have h2 : yieldAtV11 (sortRows l) i r = none := by
    by_cases hnum : r.num < 12
    · simp [yieldAtV11, hnum]
    · have hlt : i < 11 := hcond.resolve_right hnum
      cases hpp : prevPrice (sortRows l) i with
      | none => simp [yieldAtV11, hnum, hpp]
      | some p =>
        by_cases hp0 : p = 0
        · simp [yieldAtV11, hnum, hpp, hp0]
        · simp [yieldAtV11, hnum, hpp, hp0, annualDividend, hlt]
  obtain ⟨-, hget⟩ := mapExcept_ok_inv _ _ ys hys
  obtain ⟨hjlen, -⟩ := List.getElem?_eq_some_iff.mp hrj
  obtain ⟨y, hy, hfy⟩ := hget j j (by simp [List.getElem?_range hjlen])
  simp only [hrj] at hfy
  simp only [yieldAtV6, if_pos hnumj, Except.ok.injEq] at hfy
  refine ⟨by rw [h1, h2], ?_, by rw [hy, ← hfy], ?_⟩
  · simp [afterTaxCol, List.getElem?_map, h1, h2]
  · simp [afterTaxCol, List.getElem?_map, hy, ← hfy]

/-- C2 witness: position 3 of the scenario (record #4, sequence number
4 < 12) has no yield and no after-tax yield in either variant. -/
theorem C2_amended_witness :
    (calculate_annual_yield scenarioRows)[3]? = some none ∧
    (afterTaxCol taxRate (calculate_annual_yield scenarioRows))[3]? = some none ∧
    (v6result scenarioRows)[3]? = some none ∧
    (afterTaxCol taxRate (v6result scenarioRows))[3]? = some none :=
  C2_amended scenarioRows 3 3 ⟨4, some 1, some 100⟩ ⟨4, some 1, some 100⟩
    (v6result scenarioRows)
    (by decide) (by decide) (by decide) (by decide) (by decide)

/-- C3 counterexample: the prior closing price of the one record of `c3rows`
is undefined (no predecessor exists), yet the single-pass variant raises a
lookup error instead of producing the undefined sentinel, and no computation
continues — refuting "never raises an error or exception". -/
theorem C3_counterexample :
    calculate_annual_yield_v6 c3rows = Except.error CalcError.keyError ∧
    prevPrice c3rows 0 = none := by decide

/-- C3 amended: in the vectorized variant every record whose prior closing
price is undefined (including the first record in sorted order), missing, or
exactly zero receives the undefined sentinel, and the computation is total;
the single-pass variant does the same at every such record provided its
first record has sequence number < 12 — when the first record has sequence
number ≥ 12 it instead raises a lookup error and aborts. -/
theorem C3_amended (l : List Row) (i j : Nat) (r rj : Row)
    (hr : (sortRows l)[i]? = some r)
    (hprev : prevPrice (sortRows l) i = none ∨ prevPrice (sortRows l) i = some 0)
    (hsafe : ∀ r0, l[0]? = some r0 → r0.num < 12)
    (hrj : l[j]? = some rj)
    (hprevj : prevPrice l j = none ∨ prevPrice l j = some 0) :
    (calculate_annual_yield l)[i]? = some none ∧
    calculate_annual_yield_v6 l = Except.ok (v6result l) ∧
    (v6result l)[j]? = some none := by
  have h1 : (calculate_annual_yield l)[i]? = some (yieldAtV11 (sortRows l) i r) :=
    rollingYields_getElem _ i r hr
  have h2 : yieldAtV11 (sortRows l) i r = none := by
    by_cases hnum : r.num < 12
    · simp [yieldAtV11, hnum]
    · rcases hprev with hpp | hpp <;> simp [yieldAtV11, hnum, hpp]
  have h3 : (v6result l)[j]? = some (yieldAtV6run l j rj) := v6result_getElem l j rj hrj
  have h4 : yieldAtV6run l j rj = none := by
    by_cases hnum : rj.num < 12
    · simp [yieldAtV6run, hnum]
    · by_cases hj0 : j = 0
      · subst hj0
        exact absurd (hsafe rj hrj) hnum
      · have hb : (l[j-1]?).bind Row.price = none ∨ (l[j-1]?).bind Row.price = some 0 := by
          rcases hprevj with h | h
          · exact Or.inl (by simpa [prevPrice, hj0] using h)
          · exact Or.inr (by simpa [prevPrice, hj0] using h)
        rcases hb with h | h <;> simp [yieldAtV6run, hnum, hj0, h]
  exact ⟨by rw [h1, h2], calcV6_ok l hsafe, by rw [h3, h4]⟩

/-- C3 witness: position 0 of the scenario has no predecessor; both variants
give the undefined sentinel there and the single-pass run completes. -/
theorem C3_amended_witness :
    (calculate_annual_yield scenarioRows)[0]? = some none ∧
    calculate_annual_yield_v6 scenarioRows = Except.ok (v6result scenarioRows) ∧
    (v6result scenarioRows)[0]? = some none :=
  C3_amended scenarioRows 0 0 ⟨1, some 1, some 100⟩ ⟨1, some 1, some 100⟩
    (by decide) (by decide)
    (by
      intro r0 h0
      rw [show scenarioRows[0]? = some (⟨1, some 1, some 100⟩ : Row) from by decide] at h0
      injection h0 with h
      subst h
      decide)
    (by decide) (by decide)

/-- C4 counterexample: in the spec scenario, record #12 (sorted position 11)
receives the defined yield 12 — the claim that records #1 through #12 all
have undefined yield is false. -/
theorem C4_counterexample :
    (calculate_annual_yield scenarioRows)[11]? = some (some 12) ∧
    scenarioRows[11]? = some ⟨12, some 1, some 100⟩ := by decide

/-- C4 amended: in the scenario, record #13 gets annual dividend 12, yield
12 percent and after-tax yield 8.60598 percent (within 0.0001 of the claimed
8.606); records #1 through #11 have undefined yield, and record #12 —
contrary to the original claim — also receives the defined yield 12.  The
single-pass variant produces the same column. -/
theorem C4_amended :
    calculate_annual_yield scenarioRows =
      List.replicate 11 none ++ [some 12, some 12] ∧
    annualDividend (sortRows scenarioRows) 12 = some 12 ∧
    afterTaxCol taxRate (calculate_annual_yield scenarioRows) =
      List.replicate 11 none ++ [some (860598/100000), some (860598/100000)] ∧
    |(860598/100000 : ℚ) - 8606/1000| ≤ 1/10000 ∧
    calculate_annual_yield_v6 scenarioRows =
      Except.ok (List.replicate 11 none ++ [some 12, some 12]) := by decide

/-- C5 counterexample: under the v11 default stripping mapping — whose key
is the unescaped "$", an end-of-string anchor under the `regex=True`
replacement both sources use — the cell "$1.50" does not normalize to 1.50:
the dollar sign survives and numeric coercion produces the NaN sentinel. -/
theorem C5_counterexample :
    normalizeCell default_config.currency_symbols "$1.50" = none ∧
    applySymbols default_config.currency_symbols "$1.50" = "$1.50" := by decide

/-- C5 amended: the mapping keys are regular expressions, not literal
substrings.  Under g_yield_v6's escaped mapping the cell "$1.50" normalizes
to 1.50 and "¥100" to 100; under the v11 default mapping the key "$"
anchors at end-of-string, so "$1.50" survives stripping and coerces to the
NaN sentinel (never an error), while a plain "1.50" still parses; a string
that fails to parse after stripping becomes NaN as well. -/
theorem C5_amended :
    normalizeCell currency_symbols "$1.50" = some (3/2) ∧
    normalizeCell currency_symbols "¥100" = some 100 ∧
    normalizeCell default_config.currency_symbols "$1.50" = none ∧
    normalizeCell default_config.currency_symbols "1.50" = some (3/2) ∧
    normalizeCell currency_symbols "abc" = none := by decide

/-- A weakly sorted row list with pairwise-distinct sequence numbers is
strictly sorted. -/
theorem sortedLt_of_sorted_nodup {l : List Row} (hs : l.Sorted rowLe)
    (hd : (l.map Row.num).Nodup) : l.Sorted rowLt := by
  have hne : l.Pairwise (fun a b => a.num ≠ b.num) := List.pairwise_map.mp hd
  exact (hs.and hne).imp (fun h => lt_of_le_of_ne h.1 h.2)

/-- C6 counterexample: the yield series is computed on the sorted data but
assigned back by position, so feeding the scenario in reverse order makes
the output table attach different values to the same records than the
sorted input does — the claimed permutation-invariance of the attachment
fails. -/
theorem C6_counterexample :
    shuffledRows.Perm scenarioRows ∧
    (↑(attachedYields shuffledRows) : Multiset (Row × Option ℚ)) ≠
      ↑(attachedYields scenarioRows) :=
  ⟨List.reverse_perm scenarioRows, by decide⟩

/-- C6 amended: the yield series `calculate_annual_yield` returns is
permutation-invariant whenever the sequence numbers are pairwise distinct
(it depends only on the dataset sorted by sequence number); but `main`
attaches that series to the table by position, so the attachment of values
to records is order-independent only for input that is already sorted. -/
theorem C6_amended (l l2 : List Row)
    (hp : l2.Perm l) (hd : (l.map Row.num).Nodup) :
    calculate_annual_yield l2 = calculate_annual_yield l := by
  suffices h : sortRows l2 = sortRows l by
    rw [calculate_annual_yield, calculate_annual_yield, h]
  have p2 : (sortRows l2).Perm (sortRows l) :=
    ((List.perm_insertionSort rowLe l2).trans hp).trans
      (List.perm_insertionSort rowLe l).symm
  have s1 : (sortRows l).Sorted rowLe := List.sorted_insertionSort rowLe l
  have s2 : (sortRows l2).Sorted rowLe := List.sorted_insertionSort rowLe l2
  have hd1 : ((sortRows l).map Row.num).Nodup :=
    (((List.perm_insertionSort rowLe l).map Row.num).nodup_iff).mpr hd
  have hd2 : ((sortRows l2).map Row.num).Nodup :=
    ((((List.perm_insertionSort rowLe l2).trans hp).map Row.num).nodup_iff).mpr hd
  exact List.eq_of_perm_of_sorted p2
    (sortedLt_of_sorted_nodup s2 hd2) (sortedLt_of_sorted_nodup s1 hd1)

/-- C6 witness: the reversed scenario yields the same computed series as the
sorted scenario. -/
theorem C6_amended_witness :
    calculate_annual_yield shuffledRows = calculate_annual_yield scenarioRows :=
  C6_amended scenarioRows shuffledRows (List.reverse_perm scenarioRows) (by decide)

/-- C7 counterexample: on the sorted two-record dataset `c7rows` the
single-pass variant computes the defined yield 3 at position 1 (a partial
window of only two records) while the vectorized variant computes the
undefined sentinel there — the two variants are not equivalent. -/
theorem C7_counterexample :
    sortRows c7rows = c7rows ∧
    calculate_annual_yield_v6 c7rows = Except.ok [none, some 3] ∧
    calculate_annual_yield c7rows = [none, none] := by decide

/-- C7 amended: away from the boundary the variants agree: on a sorted
dataset whose first record has sequence number < 12 (so the single-pass
variant raises nothing), at every position with at least 12 records at or
before it whose window holds no missing dividend, both variants produce the
same value.  They diverge at positions with fewer than 12 preceding records,
on windows containing missing dividends, and when the first record has
sequence number ≥ 12. -/
theorem C7_amended (l : List Row) (i : Nat) (ys : List (Option ℚ))
    (hs : sortRows l = l)
    (hsafe : ∀ r0, l[0]? = some r0 → r0.num < 12)
    (hi : 11 ≤ i)
    (hw : (windowDivs l i).all Option.isSome = true)
    (hys : calculate_annual_yield_v6 l = Except.ok ys) :
    ys[i]? = (calculate_annual_yield l)[i]? := by
  have hok := calcV6_ok l hsafe
  rw [hys] at hok
  have hv : ys = v6result l := Except.ok.inj hok
  subst hv
  cases hri : l[i]? with
  | none =>
    have hlen : l.length ≤ i := by
      by_contra hc
      rw [List.getElem?_eq_getElem (by omega)] at hri
      exact Option.noConfusion hri
    have h1 : (v6result l)[i]? = none := by
      apply List.getElem?_eq_none
      simpa [v6result] using hlen
    have h2 : (calculate_annual_yield l)[i]? = none := by
      apply List.getElem?_eq_none
      simpa [calculate_annual_yield, rollingYields, hs] using hlen
    rw [h1, h2]
  | some r =>
    rw [v6result_getElem l i r hri]
    rw [calculate_annual_yield, hs, rollingYields_getElem l i r hri]
    have hi0 : ¬(i = 0) := by omega
    by_cases hnum : r.num < 12
    · simp [yieldAtV6run, yieldAtV11, hnum]
    · simp only [yieldAtV6run, yieldAtV11, if_neg hnum, if_neg hi0, prevPrice]
      cases hb : (l[i-1]?).bind Row.price with
      | none => simp
      | some p =>
        by_cases hp0 : p = 0
        · simp [hp0]
        · simp [hp0, annualDividend, not_lt.mpr hi, hw]

/-- C7 witness: the two variants agree at position 12 of the scenario. -/
theorem C7_amended_witness :
    (v6result scenarioRows)[12]? = (calculate_annual_yield scenarioRows)[12]? :=
  C7_amended scenarioRows 12 (v6result scenarioRows) (by decide)
    (by
      intro r0 h0
      rw [show scenarioRows[0]? = some (⟨1, some 1, some 100⟩ : Row) from by decide] at h0
      injection h0 with h
      subst h
      decide)
    (by decide) (by decide) (by decide)

/-- Overwriting a column's state changes no column's presence. -/
theorem lookupCol_setCol_isNone (c d : String) (s : ColState) :
    ∀ f : V6Frame, (lookupCol (setCol f c s) d).isNone = (lookupCol f d).isNone := by
  intro f
  induction f with
  | nil => rfl
  | cons e f ih =>
    by_cases hc : e.1 == c <;> by_cases hd : e.1 == d <;>
      simp [setCol, lookupCol, hc, hd, ih]

/-- Converting columns in place does not change which column is the first
absent one. -/
theorem firstAbsentCol_setCol (c : String) (s : ColState) (f : V6Frame) :
    ∀ cs : List String, firstAbsentCol (setCol f c s) cs = firstAbsentCol f cs
  | [] => rfl
  | d :: cs => by
    simp [firstAbsentCol, lookupCol_setCol_isNone c d s f,
      firstAbsentCol_setCol c s f cs]

/-- The single-pass conversion loop raises exactly at the first absent
configured column — one bare name, never a list — and raises nothing when
every configured column is present. -/
theorem convertColumnsV6_raises (syms : List (String × String)) :
    ∀ (cs : List String) (f : V6Frame),
      (convertColumnsV6 syms cs f).2 = firstAbsentCol f cs := by
  intro cs
  induction cs with
  | nil => intro f; rfl
  | cons c cs ih =>
    intro f
    cases hl : lookupCol f c with
    | none => simp [convertColumnsV6, firstAbsentCol, hl]
    | some st =>
      simp only [convertColumnsV6, firstAbsentCol, hl, Option.isNone_some,
        Bool.false_eq_true, if_false]
      rw [ih (setCol f c (convertState syms st))]
      exact firstAbsentCol_setCol c (convertState syms st) f cs

/-- C8 counterexample: the single-pass script has no missing-column check.
On a dataframe holding only `配当/株`, its conversion loop (using the
script's own mapping and column list) first normalizes that column in place
— so normalization does take place before the abort — and then raises a
`KeyError` naming only `前月終値`; and on a dataframe missing both
configured columns, only the first name is ever surfaced, never the exact
list of missing column names. -/
theorem C8_counterexample :
    convertColumnsV6 currency_symbols columns_to_convert
        [("配当/株", ColState.raw ["$1.50"])] =
      ([("配当/株", ColState.converted [some (3/2)])], some "前月終値") ∧
    convertColumnsV6 currency_symbols columns_to_convert [] =
      ([], some "配当/株") := by decide

/-- C8 amended: in the vectorized script, `main` aborts before any
normalization or yield computation when a configured column is absent,
reporting exactly the list of missing column names and producing no derived
columns; the single-pass script has no such check — its conversion loop
normalizes the present columns in place, in order, and raising happens at
the first absent column, whose single name is all that surfaces. -/
theorem C8_missing_columns (cfg : Config) (t : InputTable)
    (f : V6Frame) (c : String)
    (h : missing_columns cfg t ≠ [])
    (hf : firstAbsentCol f cfg.columns_to_convert = some c) :
    mainResult cfg t = Except.error (missing_columns cfg t) ∧
    (convertColumnsV6 cfg.currency_symbols cfg.columns_to_convert f).2 = some c := by
  have he : (missing_columns cfg t).isEmpty = false := by
    cases hm : missing_columns cfg t with
    | nil => exact absurd hm h
    | cons a as => rfl
  exact ⟨by simp [mainResult, he], by rw [convertColumnsV6_raises, hf]⟩

/-- C8 witness: a table lacking the `前月終値` column makes the vectorized
`main` abort and report exactly that name, while the single-pass loop on the
analogous frame raises bearing only that name. -/
theorem C8_missing_columns_witness :
    mainResult default_config ⟨[1], [("配当/株", ["1.0"])]⟩ =
      Except.error ["前月終値"] ∧
    (convertColumnsV6 default_config.currency_symbols
        default_config.columns_to_convert
        [("配当/株", ColState.raw ["1.0"])]).2 = some "前月終値" := by
  have h := C8_missing_columns default_config ⟨[1], [("配当/株", ["1.0"])]⟩
    [("配当/株", ColState.raw ["1.0"])] "前月終値" (by decide) (by decide)
  refine ⟨?_, h.2⟩
  rw [h.1]
  decide

/-- C9: the config loader never fails.  A missing artifact or a malformed
artifact gives exactly the built-in defaults (dollar/yen stripping per the
v11 source, the two standard columns, tax rate `0.9 * 0.79685`) together
with one non-fatal warning; for a parsed artifact each of the three
recognized keys is taken wholesale from the artifact when present and from
the defaults when absent — a shallow merge — with one warning per absent
key. -/
theorem C9_config_loader (u : UserConfig) :
    load_config none = (default_config, [ConfigWarning.fileNotFound]) ∧
    load_config (some none) = (default_config, [ConfigWarning.jsonDecodeError]) ∧
    default_config.currency_symbols = [("$", ""), ("¥", "")] ∧
    default_config.columns_to_convert = ["配当/株", "前月終値"] ∧
    default_config.tax_rate = 9/10 * (79685/100000) ∧
    (load_config (some (some u))).1.currency_symbols
      = u.currency_symbols.getD default_config.currency_symbols ∧
    (load_config (some (some u))).1.columns_to_convert
      = u.columns_to_convert.getD default_config.columns_to_convert ∧
    (load_config (some (some u))).1.tax_rate
      = u.tax_rate.getD default_config.tax_rate ∧
    ((ConfigWarning.missingKey "currency_symbols" ∈ (load_config (some (some u))).2)
      ↔ u.currency_symbols = none) ∧
    ((ConfigWarning.missingKey "columns_to_convert" ∈ (load_config (some (some u))).2)
      ↔ u.columns_to_convert = none) ∧
    ((ConfigWarning.missingKey "tax_rate" ∈ (load_config (some (some u))).2)
      ↔ u.tax_rate = none) := by
  refine ⟨rfl, rfl, rfl, rfl, rfl, rfl, rfl, rfl, ?_, ?_, ?_⟩ <;>
    cases hc : u.currency_symbols <;> cases hl : u.columns_to_convert <;>
      cases ht : u.tax_rate <;> simp [load_config, hc, hl, ht]

/-- C9 witness: an artifact carrying only a symbol mapping keeps that
mapping wholesale while the other two keys fall back to the defaults. -/
theorem C9_config_loader_witness :
    (load_config (some (some ⟨some [("€", "")], none, none⟩))).1.currency_symbols
      = (some [("€", "")]).getD default_config.currency_symbols :=
  (C9_config_loader ⟨some [("€", "")], none, none⟩).2.2.2.2.2.1

/-- C10: in the single-pass variant, a record with sequence number ≥ 12 and
a defined, non-zero prior closing price gets a defined yield even when some
dividends inside its trailing window are missing: the window sum counts each
missing dividend as zero. -/
theorem C10_skipna_window (l : List Row) (i : Nat) (r : Row) (p : ℚ)
    (hsafe : ∀ r0, l[0]? = some r0 → r0.num < 12)
    (hr : l[i]? = some r) (hnum : 12 ≤ r.num)
    (hp : prevPrice l i = some p) (hp0 : p ≠ 0) :
    calculate_annual_yield_v6 l = Except.ok (v6result l) ∧
    (v6result l)[i]? =
      some (some (((windowDivs l i).map (fun d => d.getD 0)).sum / p * 100)) := by
  have hi0 : ¬(i = 0) := by
    intro h0
    rw [h0] at hp
    simp [prevPrice] at hp
  have hprev : (l[i-1]?).bind Row.price = some p := by
    simpa [prevPrice, hi0] using hp
  refine ⟨calcV6_ok l hsafe, ?_⟩
  rw [v6result_getElem l i r hr]
  simp [yieldAtV6run, not_lt.mpr hnum, hi0, hprev, hp0, skipSum]

/-- C10 witness: the scenario with the dividend of record #6 missing still
yields a defined value for record #13 — the missing month counts as zero. -/
theorem C10_skipna_window_witness :
    calculate_annual_yield_v6 c10rows = Except.ok (v6result c10rows) ∧
    (v6result c10rows)[12]? =
      some (some (((windowDivs c10rows 12).map (fun d => d.getD 0)).sum / 100 * 100)) :=
  C10_skipna_window c10rows 12 ⟨13, some 1, some 100⟩ 100
    (by
      intro r0 h0
      rw [show c10rows[0]? = some (⟨1, some 1, some 100⟩ : Row) from by decide] at h0
      injection h0 with h
      subst h
      decide)
    (by decide) (by decide) (by decide) (by decide)

end YieldCalc
